import Mathlib

/-!
Shallow embedding of the ventas_pro backend ledger engine
(Express + SQLite server in the repository's server entry file).

Rows of the five tables (sessions, products, movements, sales, sale_items)
are structures; the database is a record of row lists plus per-table
AUTOINCREMENT counters and an abstract clock (`now`) standing for
CURRENT_TIMESTAMP.  SQLite REAL columns are modelled as exact rationals
(the engine never computes with them: prices and totals are stored and
returned verbatim), INTEGER columns as `Int`.  Each HTTP handler becomes a
function from the database (and the request fields it reads) to the new
database paired with its response; a rolled-back transaction returns the
database as it was when the transaction began.
-/

structure Product where
  id : Nat
  name : String
  price : ℚ
  stock : Int
  initial_stock : Int
  deleted : Bool
deriving Repr, DecidableEq

structure Session where
  id : Nat
  start_time : Nat
  end_time : Option Nat
  is_closed : Bool
deriving Repr, DecidableEq

inductive MovementType where
  | entry
  | waste
  | sale
deriving Repr, DecidableEq

structure Movement where
  id : Nat
  session_id : Nat
  product_id : Nat
  type : MovementType
  quantity : Int
  reason : Option String
  timestamp : Nat
deriving Repr, DecidableEq

inductive PaymentMethod where
  | cash
  | transfer
deriving Repr, DecidableEq

structure Sale where
  id : Nat
  session_id : Nat
  total : ℚ
  payment_method : PaymentMethod
  timestamp : Nat
deriving Repr, DecidableEq

structure SaleItem where
  id : Nat
  sale_id : Nat
  product_id : Nat
  quantity : Int
  price_at_sale : ℚ
deriving Repr, DecidableEq

/-- A cart item as sent by the client to POST /api/sales:
the handler reads `item.id`, `item.name`, `item.quantity`, `item.price`. -/
structure CartItem where
  id : Nat
  name : String
  quantity : Int
  price : ℚ
deriving Repr, DecidableEq

structure DB where
  sessions : List Session
  products : List Product
  movements : List Movement
  sales : List Sale
  sale_items : List SaleItem
  nextSessionId : Nat
  nextProductId : Nat
  nextMovementId : Nat
  nextSaleId : Nat
  nextSaleItemId : Nat
  now : Nat
deriving Repr, DecidableEq

/-- The freshly created store: empty tables, AUTOINCREMENT counters at 1. -/
def emptyDB : DB :=
  { sessions := [], products := [], movements := [], sales := [], sale_items := []
    nextSessionId := 1, nextProductId := 1, nextMovementId := 1, nextSaleId := 1
    nextSaleItemId := 1, now := 0 }

/-- Error of POST /api/inventory/move: 404 "Product not found" or
400 "Insufficient stock for waste". -/
inductive MoveError where
  | notFound
  | insufficientStock
deriving Repr, DecidableEq

/-- Error of POST /api/sales: the thrown "Insufficient stock for NAME"
(caught and answered as 400), or the TypeError raised when an item's
product id matches no row (`product.stock` on `undefined`), likewise
caught and answered as 400. -/
inductive SaleError where
  | insufficientStock (nm : String)
  | productMissing
deriving Repr, DecidableEq

/-- The open session of greatest id:
`SELECT * FROM sessions WHERE is_closed = 0 ORDER BY id DESC LIMIT 1`. -/
def maxIdSession : List Session → Option Session
  | [] => none
  | s :: rest =>
      match maxIdSession rest with
      | none => some s
      | some t => if s.id < t.id then some t else some s

def selectCurrent (ss : List Session) : Option Session :=
  maxIdSession (ss.filter (fun s => !s.is_closed))

/-- `getCurrentSession` helper: returns the open session, inserting a fresh
one (committed at once, outside any surrounding logic) when none is open. -/
def getCurrentSession (db : DB) : DB × Session :=
  match selectCurrent db.sessions with
  | some s => (db, s)
  | none =>
      let s : Session :=
        { id := db.nextSessionId, start_time := db.now, end_time := none, is_closed := false }
      ({ db with sessions := db.sessions ++ [s], nextSessionId := db.nextSessionId + 1 }, s)

/-- POST /api/sessions/close: inside one transaction, fetch the current
session, set `is_closed = 1, end_time = CURRENT_TIMESTAMP` on its id,
insert a new open session; answer `{closed_id, new_id}`. -/
def closeSession (db : DB) : DB × Nat × Nat :=
  let r := getCurrentSession db
  let db1 := r.1
  let s := r.2
  let closedList := db1.sessions.map (fun t =>
    if t.id = s.id then { t with is_closed := true, end_time := some db1.now } else t)
  let newS : Session :=
    { id := db1.nextSessionId, start_time := db1.now, end_time := none, is_closed := false }
  ({ db1 with sessions := closedList ++ [newS], nextSessionId := db1.nextSessionId + 1 },
   s.id, newS.id)

/-- GET /api/products: `SELECT * FROM products WHERE deleted = 0`. -/
def listProducts (db : DB) : List Product :=
  db.products.filter (fun p => !p.deleted)

/-- POST /api/products: inserts the given name/price/initial_stock verbatim
(no validation in the handler); answers the new row id. -/
def addProduct (db : DB) (nm : String) (price : ℚ) (initial_stock : Int) : DB × Nat :=
  let p : Product :=
    { id := db.nextProductId, name := nm, price := price, stock := initial_stock
      initial_stock := initial_stock, deleted := false }
  ({ db with products := db.products ++ [p], nextProductId := db.nextProductId + 1 }, p.id)

/-- PUT /api/products/:id: `UPDATE products SET name = ?, price = ?, stock = ?
WHERE id = ?` with the request fields verbatim (no validation beyond the id
being numeric); answers `{success: true, changes}`. -/
def updateProduct (db : DB) (id : Nat) (nm : String) (price : ℚ) (stock : Int) : DB × Nat :=
  let changes := (db.products.filter (fun p => p.id == id)).length
  ({ db with products := db.products.map (fun p =>
      if p.id = id then { p with name := nm, price := price, stock := stock } else p) },
   changes)

/-- DELETE /api/products/:id: `UPDATE products SET deleted = 1 WHERE id = ?`;
answers `{success: true, changes}`. -/
def softDeleteProduct (db : DB) (id : Nat) : DB × Nat :=
  let changes := (db.products.filter (fun p => p.id == id)).length
  ({ db with products := db.products.map (fun p =>
      if p.id = id then { p with deleted := true } else p) },
   changes)

/-- The committed transaction of POST /api/inventory/move: set the product's
stock to the precomputed `newStock` and append the movement row. -/
def applyMoveTxn (db : DB) (sessionId product_id : Nat) (t : MovementType)
    (quantity : Int) (reason : Option String) (newStock : Int) : DB :=
  { db with
    products := db.products.map (fun p =>
      if p.id = product_id then { p with stock := newStock } else p)
    movements := db.movements ++
      [{ id := db.nextMovementId, session_id := sessionId, product_id := product_id
         type := t, quantity := quantity, reason := reason, timestamp := db.now }]
    nextMovementId := db.nextMovementId + 1 }

/-- POST /api/inventory/move: fetch the current session (commits a session
insert even if the request then fails), look the product up by id alone
(the `deleted` flag is not consulted), 404 when absent; for waste, 400 when
`stock < quantity`; otherwise commit the stock update plus movement row and
answer the new stock.  A type other than entry/waste leaves stock unchanged
(the handler's if/else-if falls through). -/
def inventoryMove (db : DB) (product_id : Nat) (t : MovementType) (quantity : Int)
    (reason : Option String) : DB × Except MoveError Int :=
  let r := getCurrentSession db
  let db1 := r.1
  let session := r.2
  match db1.products.find? (fun p => p.id == product_id) with
  | none => (db1, Except.error MoveError.notFound)
  | some product =>
      match t with
      | MovementType.entry =>
          let newStock := product.stock + quantity
          (applyMoveTxn db1 session.id product_id t quantity reason newStock,
           Except.ok newStock)
      | MovementType.waste =>
          if product.stock < quantity then
            (db1, Except.error MoveError.insufficientStock)
          else
            let newStock := product.stock - quantity
            (applyMoveTxn db1 session.id product_id t quantity reason newStock,
             Except.ok newStock)
      | MovementType.sale =>
          let newStock := product.stock
          (applyMoveTxn db1 session.id product_id t quantity reason newStock,
           Except.ok newStock)

/-- The three writes the POST /api/sales loop stages for one passing item:
insert the sale_item, decrement the product's stock by the item quantity
(`UPDATE products SET stock = stock - ? WHERE id = ?`), and insert the
sale-kind movement with reason "Venta". -/
def stageItem (sessionId saleId : Nat) (db : DB) (item : CartItem) : DB :=
  { db with
    sale_items := db.sale_items ++
      [{ id := db.nextSaleItemId, sale_id := saleId, product_id := item.id
         quantity := item.quantity, price_at_sale := item.price }]
    nextSaleItemId := db.nextSaleItemId + 1
    products := db.products.map (fun p =>
      if p.id = item.id then { p with stock := p.stock - item.quantity } else p)
    movements := db.movements ++
      [{ id := db.nextMovementId, session_id := sessionId, product_id := item.id
         type := MovementType.sale, quantity := item.quantity
         reason := some "Venta", timestamp := db.now }]
    nextMovementId := db.nextMovementId + 1 }

/-- One iteration of the POST /api/sales loop: re-read the product's stock,
throw on a missing product (TypeError) or on `stock < quantity`, else stage
the item's three writes. -/
def checkoutStep (sessionId saleId : Nat) (db : DB) (item : CartItem) : Except SaleError DB :=
  match db.products.find? (fun p => p.id == item.id) with
  | none => Except.error SaleError.productMissing
  | some product =>
      if product.stock < item.quantity then
        Except.error (SaleError.insufficientStock item.name)
      else
        Except.ok (stageItem sessionId saleId db item)

/-- The per-item loop of the POST /api/sales transaction, item by item in
request order; the first throw aborts the loop. -/
def checkoutItems (sessionId saleId : Nat) (db : DB) : List CartItem → Except SaleError DB
  | [] => Except.ok db
  | item :: rest =>
      (checkoutStep sessionId saleId db item).bind
        (fun db2 => checkoutItems sessionId saleId db2 rest)

/-- The sale-row insert that opens the POST /api/sales transaction. -/
def stageSale (db : DB) (payment_method : PaymentMethod) (total : ℚ) : DB :=
  let r := getCurrentSession db
  let db1 := r.1
  { db1 with
    sales := db1.sales ++
      [{ id := db1.nextSaleId, session_id := r.2.id, total := total
         payment_method := payment_method, timestamp := db1.now }]
    nextSaleId := db1.nextSaleId + 1 }

/-- POST /api/sales: fetch the current session, then run one transaction that
inserts the sale row (total and payment method verbatim from the request,
with no validation of the items list) and processes the items in order; any
throw rolls the whole transaction back, leaving only the possible session
insert.  Answers the new sale id on success. -/
def checkout (db : DB) (items : List CartItem) (payment_method : PaymentMethod)
    (total : ℚ) : DB × Except SaleError Nat :=
  let r := getCurrentSession db
  match checkoutItems r.2.id r.1.nextSaleId (stageSale db payment_method total) items with
  | Except.ok db2 => (db2, Except.ok r.1.nextSaleId)
  | Except.error e => (r.1, Except.error e)

/-- A row of the movements report: movement joined with the product name. -/
structure ReportRow where
  movement : Movement
  product_name : String
deriving Repr, DecidableEq

/-- GET /api/reports/session/:id: the session's sales, and its movements
inner-joined with products on product id (the join does not exclude
soft-deleted products). -/
def reportForSession (db : DB) (sessionId : Nat) : List Sale × List ReportRow :=
  (db.sales.filter (fun s => s.session_id == sessionId),
   (db.movements.filter (fun m => m.session_id == sessionId)).filterMap
     (fun m => (db.products.find? (fun p => p.id == m.product_id)).map
       (fun p => { movement := m, product_name := p.name })))

/-- One mutating call against the engine, for reasoning about call
sequences. -/
inductive Op where
  | getSession
  | closeSess
  | move (pid : Nat) (t : MovementType) (q : Int) (reason : Option String)
  | sale (items : List CartItem) (pm : PaymentMethod) (total : ℚ)
deriving Repr, DecidableEq

def applyOp (db : DB) : Op → DB
  | Op.getSession => (getCurrentSession db).1
  | Op.closeSess => (closeSession db).1
  | Op.move pid t q reason => (inventoryMove db pid t q reason).1
  | Op.sale items pm total => (checkout db items pm total).1

def applyOps (db : DB) (ops : List Op) : DB :=
  ops.foldl applyOp db

/-- The op is a recordMovement or checkout call. -/
def invOp : Op → Bool
  | Op.move _ _ _ _ => true
  | Op.sale _ _ _ => true
  | _ => false

/-- The op is not an entry-kind movement with negative quantity. -/
def entrySafe : Op → Bool
  | Op.move _ MovementType.entry q _ => decide (0 ≤ q)
  | _ => true

def openSessions (db : DB) : List Session :=
  db.sessions.filter (fun s => !s.is_closed)

def openCount (db : DB) : Nat :=
  (openSessions db).length

/-- Every stored session id is below the AUTOINCREMENT counter (the primary
key invariant SQLite maintains). -/
def SessionIdsBounded (db : DB) : Prop :=
  ∀ s ∈ db.sessions, s.id < db.nextSessionId

instance (db : DB) : Decidable (SessionIdsBounded db) := by
  unfold SessionIdsBounded; infer_instance

instance exceptDecEq {ε α : Type} [DecidableEq ε] [DecidableEq α] :
    DecidableEq (Except ε α) := fun x y =>
  match x, y with
  | Except.ok a, Except.ok b =>
      if h : a = b then isTrue (by rw [h])
      else isFalse (fun he => h (Except.ok.inj he))
  | Except.error a, Except.error b =>
      if h : a = b then isTrue (by rw [h])
      else isFalse (fun he => h (Except.error.inj he))
  | Except.ok _, Except.error _ => isFalse (fun he => Except.noConfusion he)
  | Except.error _, Except.ok _ => isFalse (fun he => Except.noConfusion he)

theorem getCurrentSession_products (db : DB) :
    (getCurrentSession db).1.products = db.products := by
  unfold getCurrentSession; cases selectCurrent db.sessions <;> rfl

theorem getCurrentSession_movements (db : DB) :
    (getCurrentSession db).1.movements = db.movements := by
  unfold getCurrentSession; cases selectCurrent db.sessions <;> rfl

theorem getCurrentSession_sales (db : DB) :
    (getCurrentSession db).1.sales = db.sales := by
  unfold getCurrentSession; cases selectCurrent db.sessions <;> rfl

theorem getCurrentSession_sale_items (db : DB) :
    (getCurrentSession db).1.sale_items = db.sale_items := by
  unfold getCurrentSession; cases selectCurrent db.sessions <;> rfl

theorem getCurrentSession_now (db : DB) :
    (getCurrentSession db).1.now = db.now := by
  unfold getCurrentSession; cases selectCurrent db.sessions <;> rfl

theorem getCurrentSession_nextSaleId (db : DB) :
    (getCurrentSession db).1.nextSaleId = db.nextSaleId := by
  unfold getCurrentSession; cases selectCurrent db.sessions <;> rfl

theorem getCurrentSession_nextMovementId (db : DB) :
    (getCurrentSession db).1.nextMovementId = db.nextMovementId := by
  unfold getCurrentSession; cases selectCurrent db.sessions <;> rfl

theorem getCurrentSession_nextSaleItemId (db : DB) :
    (getCurrentSession db).1.nextSaleItemId = db.nextSaleItemId := by
  unfold getCurrentSession; cases selectCurrent db.sessions <;> rfl

theorem getCurrentSession_nextProductId (db : DB) :
    (getCurrentSession db).1.nextProductId = db.nextProductId := by
  unfold getCurrentSession; cases selectCurrent db.sessions <;> rfl

/-- Mapping an id-preserving function over products leaves the id column
unchanged. -/
theorem map_id_of_pointwise (l : List Product) (f : Product → Product)
    (hf : ∀ p, (f p).id = p.id) : (l.map f).map Product.id = l.map Product.id := by
  induction l with
  | nil => rfl
  | cons a t ih => simp only [List.map_cons, hf a, ih]

theorem find?_id_cons_pos (a : Product) (t : List Product) (pid : Nat)
    (h : (a.id == pid) = true) :
    (a :: t).find? (fun p => p.id == pid) = some a := by
  simp [List.find?, h]

theorem find?_id_cons_neg (a : Product) (t : List Product) (pid : Nat)
    (h : (a.id == pid) = false) :
    (a :: t).find? (fun p => p.id == pid) = t.find? (fun p => p.id == pid) := by
  simp [List.find?, h]

/-- find? by product id commutes with mapping an id-preserving function. -/
theorem find?_map_preserve (l : List Product) (pid : Nat) (f : Product → Product)
    (hf : ∀ p, (f p).id = p.id) :
    (l.map f).find? (fun q => q.id == pid) = (l.find? (fun q => q.id == pid)).map f := by
  induction l with
  | nil => rfl
  | cons a t ih =>
      simp only [List.map_cons]
      by_cases h : (a.id == pid) = true
      · have h2 : (((f a).id == pid) = true) := by rw [hf a]; exact h
        rw [find?_id_cons_pos _ _ _ h2, find?_id_cons_pos _ _ _ h]
        rfl
      · have h' : ((a.id == pid) = false) := by
          cases hb : (a.id == pid) with
          | true => exact absurd hb h
          | false => rfl
        have h2 : (((f a).id == pid) = false) := by rw [hf a]; exact h'
        rw [find?_id_cons_neg _ _ _ h2, find?_id_cons_neg _ _ _ h']
        exact ih

/-- With no duplicate ids, find? by id returns exactly the member carrying
that id. -/
theorem find?_of_nodup_mem (l : List Product) (hn : (l.map Product.id).Nodup)
    (x : Product) (hx : x ∈ l) (pid : Nat) (hid : x.id = pid) :
    l.find? (fun p => p.id == pid) = some x := by
  induction l with
  | nil => cases hx
  | cons a t ih =>
      rw [List.map_cons, List.nodup_cons] at hn
      rcases List.mem_cons.1 hx with hxa | hxt
      · subst hxa
        exact find?_id_cons_pos _ _ _ (by simp [hid])
      · by_cases ha : (a.id == pid) = true
        · exfalso
          apply hn.1
          have hmm : x.id ∈ t.map Product.id := List.mem_map_of_mem Product.id hxt
          rw [hid] at hmm
          have ha' : a.id = pid := by simpa using ha
          rw [ha']
          exact hmm
        · have ha' : ((a.id == pid) = false) := by
            cases hb : (a.id == pid) with
            | true => exact absurd hb ha
            | false => rfl
          rw [find?_id_cons_neg _ _ _ ha']
          exact ih hn.2 hxt

theorem checkoutStep_ids (sid sl : Nat) (db : DB) (item : CartItem) (db2 : DB)
    (h : checkoutStep sid sl db item = Except.ok db2) :
    db2.products.map Product.id = db.products.map Product.id := by
  unfold checkoutStep at h
  split at h
  · cases h
  · rename_i product hf
    split at h
    · cases h
    · cases h
      exact map_id_of_pointwise _ _ (fun p => by
        by_cases hp : p.id = item.id <;> simp [stageItem, hp])

theorem checkoutStep_nonneg (sid sl : Nat) (db : DB) (item : CartItem) (db2 : DB)
    (h : checkoutStep sid sl db item = Except.ok db2)
    (hn : (db.products.map Product.id).Nodup)
    (h0 : ∀ p ∈ db.products, 0 ≤ p.stock) :
    ∀ p ∈ db2.products, 0 ≤ p.stock := by
  unfold checkoutStep at h
  split at h
  · cases h
  · rename_i product hf
    split at h
    · cases h
    · rename_i hlt
      cases h
      intro q hq
      rcases List.mem_map.1 hq with ⟨x, hx, hxq⟩
      by_cases hid : x.id = item.id
      · have hfx : db.products.find? (fun p => p.id == item.id) = some x :=
          find?_of_nodup_mem db.products hn x hx item.id hid
        rw [hf] at hfx
        cases hfx
        rw [if_pos hid] at hxq
        rw [← hxq]
        show 0 ≤ product.stock - item.quantity
        omega
      · rw [if_neg hid] at hxq
        rw [← hxq]
        exact h0 x hx

theorem checkoutStep_movements (sid sl : Nat) (db : DB) (item : CartItem) (db2 : DB)
    (h : checkoutStep sid sl db item = Except.ok db2) :
    db2.movements = db.movements ++
      [{ id := db.nextMovementId, session_id := sid, product_id := item.id
         type := MovementType.sale, quantity := item.quantity
         reason := some "Venta", timestamp := db.now }] := by
  unfold checkoutStep at h
  split at h
  · cases h
  · split at h
    · cases h
    · cases h
      rfl

theorem checkoutItems_ids (sid sl : Nat) (items : List CartItem) :
    ∀ db db' : DB, checkoutItems sid sl db items = Except.ok db' →
      db'.products.map Product.id = db.products.map Product.id := by
  induction items with
  | nil =>
      intro db db' h
      cases h
      rfl
  | cons item rest ih =>
      intro db db' h
      unfold checkoutItems at h
      cases hs : checkoutStep sid sl db item with
      | error e => rw [hs] at h; cases h
      | ok db2 =>
          rw [hs] at h
          rw [ih _ _ h]
          exact checkoutStep_ids sid sl db item db2 hs

theorem checkoutItems_nonneg (sid sl : Nat) (items : List CartItem) :
    ∀ db db' : DB, checkoutItems sid sl db items = Except.ok db' →
      (db.products.map Product.id).Nodup →
      (∀ p ∈ db.products, 0 ≤ p.stock) →
      ∀ p ∈ db'.products, 0 ≤ p.stock := by
  induction items with
  | nil =>
      intro db db' h hn h0
      cases h
      exact h0
  | cons item rest ih =>
      intro db db' h hn h0
      unfold checkoutItems at h
      cases hs : checkoutStep sid sl db item with
      | error e => rw [hs] at h; cases h
      | ok db2 =>
          rw [hs] at h
          refine ih _ _ h ?_ ?_
          · rw [checkoutStep_ids sid sl db item db2 hs]
            exact hn
          · exact checkoutStep_nonneg sid sl db item db2 hs hn h0

theorem checkoutItems_append (sid sl : Nat) (l1 l2 : List CartItem) :
    ∀ db : DB, checkoutItems sid sl db (l1 ++ l2)
      = (checkoutItems sid sl db l1).bind (fun dbm => checkoutItems sid sl dbm l2) := by
  induction l1 with
  | nil => intro db; rfl
  | cons item rest ih =>
      intro db
      show (checkoutStep sid sl db item).bind _
          = ((checkoutStep sid sl db item).bind _).bind _
      cases checkoutStep sid sl db item with
      | error e => rfl
      | ok db2 => exact ih db2

theorem checkoutItems_saleCount (sid sl : Nat) (items : List CartItem) :
    ∀ db db' : DB, checkoutItems sid sl db items = Except.ok db' →
      (db'.movements.filter (fun m => m.type == MovementType.sale)).length
        = (db.movements.filter (fun m => m.type == MovementType.sale)).length
          + items.length := by
  induction items with
  | nil =>
      intro db db' h
      cases h
      rfl
  | cons item rest ih =>
      intro db db' h
      unfold checkoutItems at h
      cases hs : checkoutStep sid sl db item with
      | error e => rw [hs] at h; cases h
      | ok db2 =>
          rw [hs] at h
          have hm := checkoutStep_movements sid sl db item db2 hs
          have := ih _ _ h
          rw [this, hm, List.filter_append, List.length_append]
          simp
          omega

theorem applyMoveTxn_ids (db : DB) (sessionId pid : Nat) (t : MovementType)
    (q : Int) (reason : Option String) (newStock : Int) :
    (applyMoveTxn db sessionId pid t q reason newStock).products.map Product.id
      = db.products.map Product.id :=
  map_id_of_pointwise _ _ (fun p => by by_cases hp : p.id = pid <;> simp [hp])

theorem applyMoveTxn_nonneg (db : DB) (sessionId pid : Nat) (t : MovementType)
    (q : Int) (reason : Option String) (newStock : Int)
    (h0 : ∀ p ∈ db.products, 0 ≤ p.stock) (hns : 0 ≤ newStock) :
    ∀ p ∈ (applyMoveTxn db sessionId pid t q reason newStock).products, 0 ≤ p.stock := by
  intro q' hq
  rcases List.mem_map.1 hq with ⟨x, hx, hxq⟩
  by_cases hid : x.id = pid
  · rw [if_pos hid] at hxq
    rw [← hxq]
    exact hns
  · rw [if_neg hid] at hxq
    rw [← hxq]
    exact h0 x hx

theorem closeSession_products (db : DB) :
    (closeSession db).1.products = db.products := by
  unfold closeSession
  simp only [getCurrentSession_products]

theorem inventoryMove_notFound (db : DB) (pid : Nat) (t : MovementType) (q : Int)
    (reason : Option String)
    (h : db.products.find? (fun p => p.id == pid) = none) :
    inventoryMove db pid t q reason
      = ((getCurrentSession db).1, Except.error MoveError.notFound) := by
  unfold inventoryMove
  simp only [getCurrentSession_products, h]

theorem inventoryMove_entry (db : DB) (pid : Nat) (q : Int) (reason : Option String)
    (product : Product)
    (hf : db.products.find? (fun p => p.id == pid) = some product) :
    inventoryMove db pid MovementType.entry q reason
      = (applyMoveTxn (getCurrentSession db).1 (getCurrentSession db).2.id pid
           MovementType.entry q reason (product.stock + q),
         Except.ok (product.stock + q)) := by
  unfold inventoryMove
  simp only [getCurrentSession_products, hf]

theorem inventoryMove_waste_insufficient (db : DB) (pid : Nat) (q : Int)
    (reason : Option String) (product : Product)
    (hf : db.products.find? (fun p => p.id == pid) = some product)
    (hlt : product.stock < q) :
    inventoryMove db pid MovementType.waste q reason
      = ((getCurrentSession db).1, Except.error MoveError.insufficientStock) := by
  unfold inventoryMove
  simp only [getCurrentSession_products, hf, if_pos hlt]

theorem inventoryMove_waste_ok (db : DB) (pid : Nat) (q : Int)
    (reason : Option String) (product : Product)
    (hf : db.products.find? (fun p => p.id == pid) = some product)
    (hge : ¬ product.stock < q) :
    inventoryMove db pid MovementType.waste q reason
      = (applyMoveTxn (getCurrentSession db).1 (getCurrentSession db).2.id pid
           MovementType.waste q reason (product.stock - q),
         Except.ok (product.stock - q)) := by
  unfold inventoryMove
  simp only [getCurrentSession_products, hf, if_neg hge]

theorem inventoryMove_saleType (db : DB) (pid : Nat) (q : Int)
    (reason : Option String) (product : Product)
    (hf : db.products.find? (fun p => p.id == pid) = some product) :
    inventoryMove db pid MovementType.sale q reason
      = (applyMoveTxn (getCurrentSession db).1 (getCurrentSession db).2.id pid
           MovementType.sale q reason product.stock,
         Except.ok product.stock) := by
  unfold inventoryMove
  simp only [getCurrentSession_products, hf]

theorem stageSale_products (db : DB) (pm : PaymentMethod) (total : ℚ) :
    (stageSale db pm total).products = db.products := by
  unfold stageSale
  simp only [getCurrentSession_products]

theorem stageSale_movements (db : DB) (pm : PaymentMethod) (total : ℚ) :
    (stageSale db pm total).movements = db.movements := by
  unfold stageSale
  simp only [getCurrentSession_movements]

theorem stageSale_sale_items (db : DB) (pm : PaymentMethod) (total : ℚ) :
    (stageSale db pm total).sale_items = db.sale_items := by
  unfold stageSale
  simp only [getCurrentSession_sale_items]

theorem stageSale_sales (db : DB) (pm : PaymentMethod) (total : ℚ) :
    (stageSale db pm total).sales = db.sales ++
      [{ id := db.nextSaleId, session_id := (getCurrentSession db).2.id, total := total
         payment_method := pm, timestamp := db.now }] := by
  unfold stageSale
  simp only [getCurrentSession_sales, getCurrentSession_nextSaleId, getCurrentSession_now]

theorem stageSale_ids (db : DB) (pm : PaymentMethod) (total : ℚ) :
    (stageSale db pm total).nextSaleItemId = db.nextSaleItemId ∧
    (stageSale db pm total).nextMovementId = db.nextMovementId ∧
    (stageSale db pm total).now = db.now := by
  unfold stageSale
  refine ⟨?_, ?_, ?_⟩ <;>
    simp only [getCurrentSession_nextSaleItemId, getCurrentSession_nextMovementId,
      getCurrentSession_now]

theorem checkout_error (db : DB) (items : List CartItem) (pm : PaymentMethod)
    (total : ℚ) (e : SaleError)
    (h : checkoutItems (getCurrentSession db).2.id (getCurrentSession db).1.nextSaleId
           (stageSale db pm total) items = Except.error e) :
    checkout db items pm total = ((getCurrentSession db).1, Except.error e) := by
  simp only [checkout]
  rw [h]

theorem checkout_ok (db : DB) (items : List CartItem) (pm : PaymentMethod)
    (total : ℚ) (db2 : DB)
    (h : checkoutItems (getCurrentSession db).2.id (getCurrentSession db).1.nextSaleId
           (stageSale db pm total) items = Except.ok db2) :
    checkout db items pm total = (db2, Except.ok db.nextSaleId) := by
  simp only [checkout]
  rw [h, getCurrentSession_nextSaleId]

theorem applyOp_ids (db : DB) (op : Op) :
    (applyOp db op).products.map Product.id = db.products.map Product.id := by
  cases op with
  | getSession =>
      show (getCurrentSession db).1.products.map Product.id = _
      rw [getCurrentSession_products]
  | closeSess =>
      show (closeSession db).1.products.map Product.id = _
      rw [closeSession_products]
  | move pid t q reason =>
      show (inventoryMove db pid t q reason).1.products.map Product.id = _
      cases hf : db.products.find? (fun p => p.id == pid) with
      | none =>
          rw [inventoryMove_notFound db pid t q reason hf]
          exact congrArg (List.map Product.id) (getCurrentSession_products db)
      | some product =>
          cases t with
          | entry =>
              rw [inventoryMove_entry db pid q reason product hf]
              rw [applyMoveTxn_ids, getCurrentSession_products]
          | waste =>
              by_cases hlt : product.stock < q
              · rw [inventoryMove_waste_insufficient db pid q reason product hf hlt]
                exact congrArg (List.map Product.id) (getCurrentSession_products db)
              · rw [inventoryMove_waste_ok db pid q reason product hf hlt]
                rw [applyMoveTxn_ids, getCurrentSession_products]
          | sale =>
              rw [inventoryMove_saleType db pid q reason product hf]
              rw [applyMoveTxn_ids, getCurrentSession_products]
  | sale items pm total =>
      show (checkout db items pm total).1.products.map Product.id = _
      cases hc : checkoutItems (getCurrentSession db).2.id (getCurrentSession db).1.nextSaleId
          (stageSale db pm total) items with
      | error e =>
          rw [checkout_error db items pm total e hc]
          exact congrArg (List.map Product.id) (getCurrentSession_products db)
      | ok db2 =>
          rw [checkout_ok db items pm total db2 hc]
          rw [checkoutItems_ids _ _ _ _ _ hc, stageSale_products]

theorem applyOp_nonneg (db : DB) (op : Op)
    (hn : (db.products.map Product.id).Nodup)
    (h0 : ∀ p ∈ db.products, 0 ≤ p.stock)
    (hop : entrySafe op = true) :
    ∀ p ∈ (applyOp db op).products, 0 ≤ p.stock := by
  cases op with
  | getSession =>
      show ∀ p ∈ (getCurrentSession db).1.products, 0 ≤ p.stock
      rw [getCurrentSession_products]
      exact h0
  | closeSess =>
      show ∀ p ∈ (closeSession db).1.products, 0 ≤ p.stock
      rw [closeSession_products]
      exact h0
  | move pid t q reason =>
      show ∀ p ∈ (inventoryMove db pid t q reason).1.products, 0 ≤ p.stock
      cases hf : db.products.find? (fun p => p.id == pid) with
      | none =>
          rw [inventoryMove_notFound db pid t q reason hf]
          rw [getCurrentSession_products]
          exact h0
      | some product =>
          have hpmem : product ∈ db.products := List.mem_of_find?_eq_some hf
          have hp0 : 0 ≤ product.stock := h0 product hpmem
          cases t with
          | entry =>
              have hq : 0 ≤ q := by simpa [entrySafe] using hop
              rw [inventoryMove_entry db pid q reason product hf]
              refine applyMoveTxn_nonneg _ _ _ _ _ _ _ ?_ (by omega)
              rw [getCurrentSession_products]
              exact h0
          | waste =>
              by_cases hlt : product.stock < q
              · rw [inventoryMove_waste_insufficient db pid q reason product hf hlt]
                rw [getCurrentSession_products]
                exact h0
              · rw [inventoryMove_waste_ok db pid q reason product hf hlt]
                refine applyMoveTxn_nonneg _ _ _ _ _ _ _ ?_ (by omega)
                rw [getCurrentSession_products]
                exact h0
          | sale =>
              rw [inventoryMove_saleType db pid q reason product hf]
              refine applyMoveTxn_nonneg _ _ _ _ _ _ _ ?_ hp0
              rw [getCurrentSession_products]
              exact h0
  | sale items pm total =>
      show ∀ p ∈ (checkout db items pm total).1.products, 0 ≤ p.stock
      cases hc : checkoutItems (getCurrentSession db).2.id (getCurrentSession db).1.nextSaleId
          (stageSale db pm total) items with
      | error e =>
          rw [checkout_error db items pm total e hc]
          rw [getCurrentSession_products]
          exact h0
      | ok db2 =>
          rw [checkout_ok db items pm total db2 hc]
          refine checkoutItems_nonneg _ _ _ _ _ hc ?_ ?_
          · rw [stageSale_products]
            exact hn
          · rw [stageSale_products]
            exact h0

/-- A one-product store: product 1 ("A", price 5) with stock 3. -/
def exC1 : DB :=
  { emptyDB with products := [{ id := 1, name := "A", price := 5, stock := 3
                                initial_stock := 3, deleted := false }]
                 nextProductId := 2 }

/-- Claim C1 (amended): for every product and every sequence of
recordMovement and checkout calls in which no entry-kind movement carries a
negative quantity, the product's stock stays nonnegative after the
sequence, whether each call succeeds or is rejected; in particular no
waste or sale operation ever drives stock negative (the `entrySafe`
restriction is vacuous for waste and sale calls).  Product ids are assumed
duplicate-free, as the products primary key guarantees. -/
theorem stock_nonneg_c1 (db : DB) (ops : List Op)
    (hn : (db.products.map Product.id).Nodup)
    (h0 : ∀ p ∈ db.products, 0 ≤ p.stock)
    (hops : ∀ op ∈ ops, invOp op = true ∧ entrySafe op = true) :
    ∀ p ∈ (applyOps db ops).products, 0 ≤ p.stock := by
  induction ops generalizing db with
  | nil => simpa [applyOps] using h0
  | cons op rest ih =>
      have hop := hops op (List.mem_cons_self op rest)
      have hrest : ∀ o ∈ rest, invOp o = true ∧ entrySafe o = true :=
        fun o ho => hops o (List.mem_cons_of_mem op ho)
      have h1 := applyOp_nonneg db op hn h0 hop.2
      have hn1 : ((applyOp db op).products.map Product.id).Nodup := by
        rw [applyOp_ids]; exact hn
      show ∀ p ∈ (applyOps (applyOp db op) rest).products, 0 ≤ p.stock
      exact ih (applyOp db op) hn1 h1 hrest

/-- Claim C1 counterexample: starting from stock 3 (nonnegative), the single
recordMovement call entry(quantity = -5) is accepted by the handler (no
quantity validation) and leaves stock -2 < 0, refuting the claim as stated
for arbitrary recordMovement sequences. -/
theorem stock_nonneg_c1_counterexample :
    (∀ p ∈ exC1.products, 0 ≤ p.stock) ∧
    (∀ op ∈ [Op.move 1 MovementType.entry (-5) none], invOp op = true) ∧
    ∃ p ∈ (applyOps exC1 [Op.move 1 MovementType.entry (-5) none]).products,
      p.stock < 0 := by
  decide

/-- Claim C1 witness: the amended theorem applied to the concrete store
`exC1` and an entry/sale/waste sequence with nonnegative quantities. -/
theorem stock_nonneg_c1_witness :
    ((exC1.products.map Product.id).Nodup ∧ (∀ p ∈ exC1.products, 0 ≤ p.stock) ∧
      (∀ op ∈ [Op.move 1 MovementType.entry 5 none,
               Op.sale [{ id := 1, name := "A", quantity := 2, price := 10 }]
                 PaymentMethod.cash 20,
               Op.move 1 MovementType.waste 1 none],
        invOp op = true ∧ entrySafe op = true)) ∧
    ∀ p ∈ (applyOps exC1 [Op.move 1 MovementType.entry 5 none,
               Op.sale [{ id := 1, name := "A", quantity := 2, price := 10 }]
                 PaymentMethod.cash 20,
               Op.move 1 MovementType.waste 1 none]).products, 0 ≤ p.stock :=
  ⟨⟨by decide, by decide, by decide⟩,
   stock_nonneg_c1 exC1 _ (by decide) (by decide) (by decide)⟩

theorem maxIdSession_eq_none (l : List Session) (h : maxIdSession l = none) : l = [] := by
  cases l with
  | nil => rfl
  | cons s rest =>
      exfalso
      unfold maxIdSession at h
      split at h
      · cases h
      · split at h <;> cases h

theorem maxIdSession_mem (l : List Session) (s : Session)
    (h : maxIdSession l = some s) : s ∈ l := by
  induction l generalizing s with
  | nil => cases h
  | cons a rest ih =>
      unfold maxIdSession at h
      split at h
      · cases h
        exact List.mem_cons_self _ _
      · rename_i t hm
        split at h
        · cases h
          exact List.mem_cons_of_mem _ (ih _ hm)
        · cases h
          exact List.mem_cons_self _ _

theorem selectCurrent_mem (ss : List Session) (s : Session)
    (h : selectCurrent ss = some s) : s ∈ ss ∧ s.is_closed = false := by
  have hm := maxIdSession_mem _ _ h
  have hf := List.mem_filter.1 hm
  refine ⟨hf.1, ?_⟩
  simpa using hf.2

theorem selectCurrent_none (ss : List Session)
    (h : selectCurrent ss = none) : ss.filter (fun s => !s.is_closed) = [] :=
  maxIdSession_eq_none _ h

theorem singleton_of_length_le_one {α : Type} {l : List α} {s : α}
    (hl : l.length ≤ 1) (hs : s ∈ l) : l = [s] := by
  cases l with
  | nil => cases hs
  | cons a rest =>
      cases rest with
      | nil =>
          have hsa : s = a := by simpa using hs
          rw [hsa]
      | cons b t =>
          exfalso
          simp only [List.length_cons] at hl
          omega

theorem getCurrentSession_eq_some (db : DB) (s : Session)
    (h : selectCurrent db.sessions = some s) : getCurrentSession db = (db, s) := by
  unfold getCurrentSession
  rw [h]

theorem getCurrentSession_eq_none (db : DB)
    (h : selectCurrent db.sessions = none) :
    getCurrentSession db =
      ({ db with
         sessions := db.sessions ++
           [{ id := db.nextSessionId, start_time := db.now
              end_time := none, is_closed := false }]
         nextSessionId := db.nextSessionId + 1 },
       { id := db.nextSessionId, start_time := db.now
         end_time := none, is_closed := false }) := by
  unfold getCurrentSession
  rw [h]

theorem getCurrentSession_openSessions (db : DB) (h : openCount db ≤ 1) :
    openSessions (getCurrentSession db).1 = [(getCurrentSession db).2] := by
  cases hc : selectCurrent db.sessions with
  | some s =>
      rw [getCurrentSession_eq_some db s hc]
      have hmem := selectCurrent_mem db.sessions s hc
      have hin : s ∈ openSessions db := List.mem_filter.2 ⟨hmem.1, by simp [hmem.2]⟩
      exact singleton_of_length_le_one h hin
  | none =>
      rw [getCurrentSession_eq_none db hc]
      show (db.sessions ++ [_]).filter (fun s : Session => !s.is_closed) = _
      rw [List.filter_append, selectCurrent_none db.sessions hc]
      rfl

theorem openCount_getCurrentSession (db : DB) (h : openCount db ≤ 1) :
    openCount (getCurrentSession db).1 = 1 := by
  unfold openCount
  rw [getCurrentSession_openSessions db h]
  rfl

theorem closeSession_eq (db : DB) :
    closeSession db =
      ({ (getCurrentSession db).1 with
         sessions := ((getCurrentSession db).1.sessions.map (fun t =>
             if t.id = (getCurrentSession db).2.id then
               { t with is_closed := true, end_time := some (getCurrentSession db).1.now }
             else t))
           ++ [{ id := (getCurrentSession db).1.nextSessionId
                 start_time := (getCurrentSession db).1.now
                 end_time := none, is_closed := false }]
         nextSessionId := (getCurrentSession db).1.nextSessionId + 1 },
       (getCurrentSession db).2.id, (getCurrentSession db).1.nextSessionId) := rfl

theorem closeSession_openSessions (db : DB) (h : openCount db ≤ 1) :
    openSessions (closeSession db).1 =
      [{ id := (closeSession db).2.2, start_time := (getCurrentSession db).1.now
         end_time := none, is_closed := false }] := by
  have hop := getCurrentSession_openSessions db h
  rw [closeSession_eq]
  show ((getCurrentSession db).1.sessions.map _ ++ [_]).filter (fun s : Session => !s.is_closed) = _
  rw [List.filter_append]
  have hmap : (((getCurrentSession db).1.sessions.map (fun t =>
      if t.id = (getCurrentSession db).2.id then
        { t with is_closed := true, end_time := some (getCurrentSession db).1.now }
      else t)).filter (fun s => !s.is_closed)) = [] := by
    rw [List.filter_eq_nil_iff]
    intro t' ht'
    rcases List.mem_map.1 ht' with ⟨t, ht, rfl⟩
    by_cases hid : t.id = (getCurrentSession db).2.id
    · rw [if_pos hid]
      simp
    · rw [if_neg hid]
      intro hopen
      have ht_in : t ∈ openSessions (getCurrentSession db).1 :=
        List.mem_filter.2 ⟨ht, hopen⟩
      rw [hop] at ht_in
      have hts : t = (getCurrentSession db).2 := by simpa using ht_in
      exact hid (by rw [hts])
  rw [hmap]
  rfl

theorem openCount_closeSession (db : DB) (h : openCount db ≤ 1) :
    openCount (closeSession db).1 = 1 := by
  unfold openCount
  rw [closeSession_openSessions db h]
  rfl

theorem getCurrentSession_bounded (db : DB) (h : SessionIdsBounded db) :
    SessionIdsBounded (getCurrentSession db).1 := by
  unfold SessionIdsBounded at h ⊢
  cases hc : selectCurrent db.sessions with
  | some s =>
      rw [getCurrentSession_eq_some db s hc]
      exact h
  | none =>
      rw [getCurrentSession_eq_none db hc]
      intro t ht
      rcases List.mem_append.1 ht with hm | hm
      · exact Nat.lt_succ_of_lt (h t hm)
      · have ht2 : t = { id := db.nextSessionId, start_time := db.now
                         end_time := none, is_closed := false } := by simpa using hm
        rw [ht2]
        exact Nat.lt_succ_self _

theorem closeSession_bounded (db : DB) (h : SessionIdsBounded db) :
    SessionIdsBounded (closeSession db).1 := by
  have h1 := getCurrentSession_bounded db h
  unfold SessionIdsBounded at h1 ⊢
  rw [closeSession_eq]
  intro t ht
  show t.id < (getCurrentSession db).1.nextSessionId + 1
  rcases List.mem_append.1 ht with hm | hm
  · rcases List.mem_map.1 hm with ⟨u, hu, rfl⟩
    have hub := h1 u hu
    by_cases hid : u.id = (getCurrentSession db).2.id
    · rw [if_pos hid]
      exact Nat.lt_succ_of_lt hub
    · rw [if_neg hid]
      exact Nat.lt_succ_of_lt hub
  · have ht2 : t = { id := (getCurrentSession db).1.nextSessionId
                     start_time := (getCurrentSession db).1.now
                     end_time := none, is_closed := false } := by simpa using hm
    rw [ht2]
    exact Nat.lt_succ_self _

theorem getCurrentSession_of_one (db : DB) (h : openCount db = 1) :
    (getCurrentSession db).1 = db ∧ (getCurrentSession db).2 ∈ db.sessions ∧
    (getCurrentSession db).2.is_closed = false := by
  cases hc : selectCurrent db.sessions with
  | none =>
      exfalso
      have hnil := selectCurrent_none db.sessions hc
      unfold openCount openSessions at h
      rw [hnil] at h
      cases h
  | some s =>
      rw [getCurrentSession_eq_some db s hc]
      have hm := selectCurrent_mem db.sessions s hc
      exact ⟨rfl, hm.1, hm.2⟩

theorem getCurrentSession_of_singleton (db : DB) (u : Session)
    (h : openSessions db = [u]) : getCurrentSession db = (db, u) := by
  have hc : selectCurrent db.sessions = some u := by
    unfold selectCurrent
    unfold openSessions at h
    rw [h]
    rfl
  exact getCurrentSession_eq_some db u hc

theorem closeSession_spec (db : DB) (h : openCount db = 1) (hb : SessionIdsBounded db) :
    (∃ s ∈ db.sessions, s.is_closed = false ∧ s.id = (closeSession db).2.1) ∧
    (∃ t ∈ (closeSession db).1.sessions, t.id = (closeSession db).2.1 ∧
        t.is_closed = true ∧ t.end_time.isSome = true) ∧
    (∃ u ∈ (closeSession db).1.sessions, u.id = (closeSession db).2.2 ∧
        u.is_closed = false) ∧
    (closeSession db).2.1 ≠ (closeSession db).2.2 ∧
    openCount (closeSession db).1 = 1 ∧
    (getCurrentSession (closeSession db).1).2.id = (closeSession db).2.2 ∧
    (getCurrentSession (closeSession db).1).1 = (closeSession db).1 := by
  obtain ⟨hg1, hg2, hg3⟩ := getCurrentSession_of_one db h
  have hsid : (closeSession db).2.1 = (getCurrentSession db).2.id := rfl
  have hnid : (closeSession db).2.2 = (getCurrentSession db).1.nextSessionId := rfl
  refine ⟨?_, ?_, ?_, ?_, ?_, ?_, ?_⟩
  · exact ⟨(getCurrentSession db).2, hg2, hg3, hsid.symm⟩
  · refine ⟨{ (getCurrentSession db).2 with
              is_closed := true
              end_time := some (getCurrentSession db).1.now }, ?_, rfl, rfl, rfl⟩
    rw [closeSession_eq]
    show _ ∈ ((getCurrentSession db).1.sessions.map _) ++ [_]
    apply List.mem_append_left
    have hg2' : (getCurrentSession db).2 ∈ (getCurrentSession db).1.sessions := by
      rw [hg1]; exact hg2
    have himg := List.mem_map_of_mem (fun t =>
      if t.id = (getCurrentSession db).2.id then
        { t with is_closed := true, end_time := some (getCurrentSession db).1.now }
      else t) hg2'
    simpa using himg
  · refine ⟨{ id := (closeSession db).2.2
              start_time := (getCurrentSession db).1.now
              end_time := none, is_closed := false }, ?_, rfl, rfl⟩
    rw [closeSession_eq]
    show _ ∈ ((getCurrentSession db).1.sessions.map _) ++ [_]
    apply List.mem_append_right
    exact List.mem_singleton.2 rfl
  · rw [hsid, hnid]
    have hg2' : (getCurrentSession db).2 ∈ (getCurrentSession db).1.sessions := by
      rw [hg1]; exact hg2
    have := getCurrentSession_bounded db hb (getCurrentSession db).2 hg2'
    omega
  · exact openCount_closeSession db (le_of_eq h)
  · have hrest := getCurrentSession_of_singleton (closeSession db).1 _
      (closeSession_openSessions db (le_of_eq h))
    rw [hrest]
  · have hrest := getCurrentSession_of_singleton (closeSession db).1 _
      (closeSession_openSessions db (le_of_eq h))
    rw [hrest]

theorem applyOps_session_aux (ops : List Op) :
    ∀ db : DB, openCount db ≤ 1 → SessionIdsBounded db →
      (∀ op ∈ ops, op = Op.getSession ∨ op = Op.closeSess) →
      (openCount (applyOps db ops) ≤ 1 ∧ SessionIdsBounded (applyOps db ops) ∧
       (ops ≠ [] → openCount (applyOps db ops) = 1)) := by
  induction ops with
  | nil =>
      intro db h1 hb _
      exact ⟨h1, hb, fun hne => absurd rfl hne⟩
  | cons op rest ih =>
      intro db h1 hb hops
      have hop := hops op (List.mem_cons_self op rest)
      have hstep : openCount (applyOp db op) = 1 ∧ SessionIdsBounded (applyOp db op) := by
        rcases hop with rfl | rfl
        · exact ⟨openCount_getCurrentSession db h1, getCurrentSession_bounded db hb⟩
        · exact ⟨openCount_closeSession db h1, closeSession_bounded db hb⟩
      have hrest : ∀ o ∈ rest, o = Op.getSession ∨ o = Op.closeSess :=
        fun o ho => hops o (List.mem_cons_of_mem op ho)
      have hih := ih (applyOp db op) (le_of_eq hstep.1) hstep.2 hrest
      refine ⟨hih.1, hih.2.1, fun _ => ?_⟩
      by_cases hre : rest = []
      · subst hre
        exact hstep.1
      · exact hih.2.2 hre

/-- Claim C3: starting from any store with at most one open session (in
particular the fresh store) and primary-key-consistent session ids, after
any nonempty sequence of getCurrentSession and closeSession calls exactly
one session has closed = false; moreover closeSession on the resulting
store closes the session that was open (stamping an end timestamp),
creates a new open session with a distinct id, returns both identifiers,
and a subsequent getCurrentSession returns the new id, not the closed one,
without changing the store. -/
theorem session_rollover_c3 (db : DB) (ops : List Op)
    (h1 : openCount db ≤ 1) (hb : SessionIdsBounded db)
    (hops : ∀ op ∈ ops, op = Op.getSession ∨ op = Op.closeSess) (hne : ops ≠ []) :
    openCount (applyOps db ops) = 1 ∧
    ((∃ s ∈ (applyOps db ops).sessions, s.is_closed = false ∧
        s.id = (closeSession (applyOps db ops)).2.1) ∧
     (∃ t ∈ (closeSession (applyOps db ops)).1.sessions,
        t.id = (closeSession (applyOps db ops)).2.1 ∧
        t.is_closed = true ∧ t.end_time.isSome = true) ∧
     (∃ u ∈ (closeSession (applyOps db ops)).1.sessions,
        u.id = (closeSession (applyOps db ops)).2.2 ∧ u.is_closed = false) ∧
     (closeSession (applyOps db ops)).2.1 ≠ (closeSession (applyOps db ops)).2.2 ∧
     openCount (closeSession (applyOps db ops)).1 = 1 ∧
     (getCurrentSession (closeSession (applyOps db ops)).1).2.id
        = (closeSession (applyOps db ops)).2.2 ∧
     (getCurrentSession (closeSession (applyOps db ops)).1).1
        = (closeSession (applyOps db ops)).1) := by
  obtain ⟨ha, hbb, hc⟩ := applyOps_session_aux ops db h1 hb hops
  have hone := hc hne
  exact ⟨hone, closeSession_spec (applyOps db ops) hone hbb⟩

/-- Claim C3 witness: the theorem applied to the fresh store and the
single-call sequence [closeSession]. -/
theorem session_rollover_c3_witness :
    (openCount emptyDB ≤ 1 ∧ SessionIdsBounded emptyDB ∧
      (∀ op ∈ [Op.closeSess], op = Op.getSession ∨ op = Op.closeSess) ∧
      ([Op.closeSess] ≠ ([] : List Op))) ∧
    (openCount (applyOps emptyDB [Op.closeSess]) = 1 ∧
     ((∃ s ∈ (applyOps emptyDB [Op.closeSess]).sessions, s.is_closed = false ∧
         s.id = (closeSession (applyOps emptyDB [Op.closeSess])).2.1) ∧
      (∃ t ∈ (closeSession (applyOps emptyDB [Op.closeSess])).1.sessions,
         t.id = (closeSession (applyOps emptyDB [Op.closeSess])).2.1 ∧
         t.is_closed = true ∧ t.end_time.isSome = true) ∧
      (∃ u ∈ (closeSession (applyOps emptyDB [Op.closeSess])).1.sessions,
         u.id = (closeSession (applyOps emptyDB [Op.closeSess])).2.2 ∧
         u.is_closed = false) ∧
      (closeSession (applyOps emptyDB [Op.closeSess])).2.1
        ≠ (closeSession (applyOps emptyDB [Op.closeSess])).2.2 ∧
      openCount (closeSession (applyOps emptyDB [Op.closeSess])).1 = 1 ∧
      (getCurrentSession (closeSession (applyOps emptyDB [Op.closeSess])).1).2.id
        = (closeSession (applyOps emptyDB [Op.closeSess])).2.2 ∧
      (getCurrentSession (closeSession (applyOps emptyDB [Op.closeSess])).1).1
        = (closeSession (applyOps emptyDB [Op.closeSess])).1)) :=
  ⟨⟨by decide, by decide, by decide, by decide⟩,
   session_rollover_c3 emptyDB [Op.closeSess] (by decide) (by decide)
     (by decide) (by decide)⟩

theorem checkoutStep_fail (sid sl : Nat) (db : DB) (item : CartItem) (product : Product)
    (hf : db.products.find? (fun p => p.id == item.id) = some product)
    (hlt : product.stock < item.quantity) :
    checkoutStep sid sl db item
      = Except.error (SaleError.insufficientStock item.name) := by
  unfold checkoutStep
  simp only [hf, if_pos hlt]

/-- Claim C2: checkout is atomic.  If, while the items are processed in
order, some item fails its stock check — its product's stock at the
moment its row is processed is below the requested quantity — then the
whole call fails with InsufficientStock naming that item, and no state
change persists: the Sale row, the SaleItems, stock decrements and
Movement rows already staged for earlier items in the same call are all
rolled back, leaving products, sales, sale_items and movements exactly as
before the call. -/
theorem checkout_atomic_c2 (db : DB) (items : List CartItem) (pm : PaymentMethod)
    (total : ℚ) (k : Nat) (hk : k < items.length) (db' : DB) (p : Product)
    (hpre : checkoutItems (getCurrentSession db).2.id (getCurrentSession db).1.nextSaleId
              (stageSale db pm total) (items.take k) = Except.ok db')
    (hfind : db'.products.find? (fun q => q.id == (items.get ⟨k, hk⟩).id) = some p)
    (hlow : p.stock < (items.get ⟨k, hk⟩).quantity) :
    (checkout db items pm total).2
        = Except.error (SaleError.insufficientStock (items.get ⟨k, hk⟩).name) ∧
    (checkout db items pm total).1.products = db.products ∧
    (checkout db items pm total).1.sales = db.sales ∧
    (checkout db items pm total).1.sale_items = db.sale_items ∧
    (checkout db items pm total).1.movements = db.movements := by
  have hrun : checkoutItems (getCurrentSession db).2.id (getCurrentSession db).1.nextSaleId
      (stageSale db pm total) items
      = Except.error (SaleError.insufficientStock (items.get ⟨k, hk⟩).name) := by
    conv_lhs => rw [← List.take_append_drop k items]
    rw [checkoutItems_append]
    rw [hpre]
    show checkoutItems _ _ db' (items.drop k) = _
    have hd : items.drop k = items.get ⟨k, hk⟩ :: items.drop (k + 1) := by
      rw [List.drop_eq_getElem_cons hk]
      rfl
    rw [hd]
    show (checkoutStep _ _ db' (items.get ⟨k, hk⟩)).bind _ = _
    rw [checkoutStep_fail _ _ db' (items.get ⟨k, hk⟩) p hfind hlow]
    rfl
  have herr := checkout_error db items pm total _ hrun
  rw [herr]
  exact ⟨rfl, getCurrentSession_products db, getCurrentSession_sales db,
    getCurrentSession_sale_items db, getCurrentSession_movements db⟩

/-- Two products: P1 (stock 2) and P2 (stock 0). -/
def exC2 : DB :=
  { emptyDB with products := [⟨1, "P1", 10, 2, 2, false⟩, ⟨2, "P2", 5, 0, 0, false⟩]
                 nextProductId := 3 }

/-- The staged store after the POST /api/sales transaction on `exC2` has
inserted the sale row and processed its first item (P1, quantity 1). -/
def exC2mid : DB :=
  { sessions := [⟨1, 0, none, false⟩]
    products := [⟨1, "P1", 10, 1, 2, false⟩, ⟨2, "P2", 5, 0, 0, false⟩]
    movements := [⟨1, 1, 1, MovementType.sale, 1, some "Venta", 0⟩]
    sales := [⟨1, 1, 15, PaymentMethod.cash, 0⟩]
    sale_items := [⟨1, 1, 1, 1, 10⟩]
    nextSessionId := 2, nextProductId := 3, nextMovementId := 2
    nextSaleId := 2, nextSaleItemId := 2, now := 0 }

/-- Claim C2 witness: with P1 at stock 2 and P2 at stock 0,
checkout([(P1, 1), (P2, 1)]) fails with InsufficientStock "P2" and P1's
stock is still 2 (the products table, and all other tables, are
untouched). -/
theorem checkout_atomic_c2_witness :
    (checkoutItems (getCurrentSession exC2).2.id (getCurrentSession exC2).1.nextSaleId
        (stageSale exC2 PaymentMethod.cash 15)
        ([⟨1, "P1", 1, 10⟩, ⟨2, "P2", 1, 5⟩].take 1) = Except.ok exC2mid ∧
     exC2mid.products.find? (fun q => q.id == 2) = some ⟨2, "P2", 5, 0, 0, false⟩) ∧
    ((checkout exC2 [⟨1, "P1", 1, 10⟩, ⟨2, "P2", 1, 5⟩] PaymentMethod.cash 15).2
        = Except.error (SaleError.insufficientStock "P2") ∧
     (checkout exC2 [⟨1, "P1", 1, 10⟩, ⟨2, "P2", 1, 5⟩] PaymentMethod.cash 15).1.products
        = exC2.products ∧
     (checkout exC2 [⟨1, "P1", 1, 10⟩, ⟨2, "P2", 1, 5⟩] PaymentMethod.cash 15).1.sales
        = exC2.sales ∧
     (checkout exC2 [⟨1, "P1", 1, 10⟩, ⟨2, "P2", 1, 5⟩] PaymentMethod.cash 15).1.sale_items
        = exC2.sale_items ∧
     (checkout exC2 [⟨1, "P1", 1, 10⟩, ⟨2, "P2", 1, 5⟩] PaymentMethod.cash 15).1.movements
        = exC2.movements) :=
  ⟨⟨by decide, by decide⟩,
   checkout_atomic_c2 exC2 [⟨1, "P1", 1, 10⟩, ⟨2, "P2", 1, 5⟩] PaymentMethod.cash 15
     1 (by decide) exC2mid ⟨2, "P2", 5, 0, 0, false⟩ (by decide) (by decide) (by decide)⟩

theorem checkoutStep_ok (sid sl : Nat) (db : DB) (item : CartItem) (product : Product)
    (hf : db.products.find? (fun p => p.id == item.id) = some product)
    (hge : ¬ product.stock < item.quantity) :
    checkoutStep sid sl db item = Except.ok (stageItem sid sl db item) := by
  unfold checkoutStep
  simp only [hf, if_neg hge]

/-- Claim C4: on a product with stock 5, checkout of the single item
(quantity 3, unit price 10.0, request total 30.0) succeeds, returns the
new sale id, leaves the product's stock at 2, and creates exactly one Sale
row (total 30.0, stamped with the current session id), one SaleItem row
(quantity 3, price_at_sale 10.0) and one Movement row (kind sale,
quantity 3, reason "Venta"); and in general every successful checkout of N
items (one per distinct product) appends exactly N movement rows of kind
sale. -/
theorem checkout_success_c4 (db : DB) (A : Nat) (nm : String) (p : Product)
    (hf : db.products.find? (fun q => q.id == A) = some p)
    (hstock : p.stock = 5) :
    ((checkout db [{ id := A, name := nm, quantity := 3, price := 10 }]
        PaymentMethod.cash 30).2 = Except.ok db.nextSaleId ∧
     (checkout db [{ id := A, name := nm, quantity := 3, price := 10 }]
        PaymentMethod.cash 30).1.products.find? (fun q => q.id == A)
        = some { p with stock := 2 } ∧
     (checkout db [{ id := A, name := nm, quantity := 3, price := 10 }]
        PaymentMethod.cash 30).1.sales = db.sales ++
        [{ id := db.nextSaleId, session_id := (getCurrentSession db).2.id, total := 30
           payment_method := PaymentMethod.cash, timestamp := db.now }] ∧
     (checkout db [{ id := A, name := nm, quantity := 3, price := 10 }]
        PaymentMethod.cash 30).1.sale_items = db.sale_items ++
        [{ id := db.nextSaleItemId, sale_id := db.nextSaleId, product_id := A
           quantity := 3, price_at_sale := 10 }] ∧
     (checkout db [{ id := A, name := nm, quantity := 3, price := 10 }]
        PaymentMethod.cash 30).1.movements = db.movements ++
        [{ id := db.nextMovementId, session_id := (getCurrentSession db).2.id
           product_id := A, type := MovementType.sale, quantity := 3
           reason := some "Venta", timestamp := db.now }]) ∧
    (∀ (db0 : DB) (items0 : List CartItem) (pm0 : PaymentMethod) (total0 : ℚ)
        (db2 : DB) (sid2 : Nat),
      checkout db0 items0 pm0 total0 = (db2, Except.ok sid2) →
      (db2.movements.filter (fun m => m.type == MovementType.sale)).length
        = (db0.movements.filter (fun m => m.type == MovementType.sale)).length
          + items0.length) := by
  have hpid : p.id = A := by simpa using List.find?_some hf
  have hstf : (stageSale db PaymentMethod.cash 30).products.find? (fun q => q.id == A)
      = some p := by
    rw [stageSale_products]
    exact hf
  have hge : ¬ p.stock < ((3 : Int)) := by
    rw [hstock]
    decide
  have hstep := checkoutStep_ok (getCurrentSession db).2.id
    (getCurrentSession db).1.nextSaleId (stageSale db PaymentMethod.cash 30)
    { id := A, name := nm, quantity := 3, price := 10 } p hstf hge
  have hitems : checkoutItems (getCurrentSession db).2.id
      (getCurrentSession db).1.nextSaleId (stageSale db PaymentMethod.cash 30)
      [{ id := A, name := nm, quantity := 3, price := 10 }]
      = Except.ok (stageItem (getCurrentSession db).2.id
          (getCurrentSession db).1.nextSaleId (stageSale db PaymentMethod.cash 30)
          { id := A, name := nm, quantity := 3, price := 10 }) := by
    show (checkoutStep _ _ _ _).bind _ = _
    rw [hstep]
    rfl
  have heq := checkout_ok db [{ id := A, name := nm, quantity := 3, price := 10 }]
    PaymentMethod.cash 30 _ hitems
  refine ⟨⟨?_, ?_, ?_, ?_, ?_⟩, ?_⟩
  · rw [heq]
  · rw [heq]
    show ((stageSale db PaymentMethod.cash 30).products.map _).find? _ = _
    rw [find?_map_preserve _ _ _ (fun q => by by_cases hq : q.id = A <;> simp [hq])]
    rw [stageSale_products, hf]
    show some (if p.id = A then { p with stock := p.stock - 3 } else p) = _
    rw [if_pos hpid]
    have h53 : p.stock - 3 = ((2 : Int)) := by
      rw [hstock]
      decide
    rw [h53]
  · rw [heq]
    show (stageSale db PaymentMethod.cash 30).sales = _
    rw [stageSale_sales]
  · rw [heq]
    show (stageSale db PaymentMethod.cash 30).sale_items ++
        [{ id := (stageSale db PaymentMethod.cash 30).nextSaleItemId
           sale_id := (getCurrentSession db).1.nextSaleId, product_id := A
           quantity := 3, price_at_sale := 10 }] = _
    rw [stageSale_sale_items, (stageSale_ids db PaymentMethod.cash 30).1,
      getCurrentSession_nextSaleId]
  · rw [heq]
    show (stageSale db PaymentMethod.cash 30).movements ++
        [{ id := (stageSale db PaymentMethod.cash 30).nextMovementId
           session_id := (getCurrentSession db).2.id, product_id := A
           type := MovementType.sale, quantity := 3, reason := some "Venta"
           timestamp := (stageSale db PaymentMethod.cash 30).now }] = _
    rw [stageSale_movements, (stageSale_ids db PaymentMethod.cash 30).2.1,
      (stageSale_ids db PaymentMethod.cash 30).2.2]
  · intro db0 items0 pm0 total0 db2 sid2 hck
    cases hc : checkoutItems (getCurrentSession db0).2.id
        (getCurrentSession db0).1.nextSaleId (stageSale db0 pm0 total0) items0 with
    | error e =>
        rw [checkout_error db0 items0 pm0 total0 e hc] at hck
        cases hck
    | ok dbo =>
        rw [checkout_ok db0 items0 pm0 total0 dbo hc] at hck
        cases hck
        have hcount := checkoutItems_saleCount _ _ items0 _ _ hc
        rw [stageSale_movements] at hcount
        exact hcount

/-- A one-product store with stock 5: product 1 ("A", price 10). -/
def exC4 : DB :=
  { emptyDB with products := [⟨1, "A", 10, 5, 5, false⟩], nextProductId := 2 }

/-- Claim C4 witness: the theorem applied to the concrete store `exC4`. -/
theorem checkout_success_c4_witness :
    ((checkout exC4 [⟨1, "A", 3, 10⟩] PaymentMethod.cash 30).2 = Except.ok 1 ∧
     (checkout exC4 [⟨1, "A", 3, 10⟩] PaymentMethod.cash 30).1.products.find?
        (fun q => q.id == 1) = some ⟨1, "A", 10, 2, 5, false⟩ ∧
     (checkout exC4 [⟨1, "A", 3, 10⟩] PaymentMethod.cash 30).1.sales
        = exC4.sales ++ [⟨1, 1, 30, PaymentMethod.cash, 0⟩] ∧
     (checkout exC4 [⟨1, "A", 3, 10⟩] PaymentMethod.cash 30).1.sale_items
        = exC4.sale_items ++ [⟨1, 1, 1, 3, 10⟩] ∧
     (checkout exC4 [⟨1, "A", 3, 10⟩] PaymentMethod.cash 30).1.movements
        = exC4.movements ++ [⟨1, 1, 1, MovementType.sale, 3, some "Venta", 0⟩]) ∧
    ((checkout exC4 [⟨1, "A", 3, 10⟩] PaymentMethod.cash 30).1.movements.filter
        (fun m => m.type == MovementType.sale)).length
      = (exC4.movements.filter (fun m => m.type == MovementType.sale)).length + 1 := by
  have h := checkout_success_c4 exC4 1 "A" ⟨1, "A", 10, 5, 5, false⟩
    (by decide) (by decide)
  refine ⟨h.1, ?_⟩
  have hck : checkout exC4 [⟨1, "A", 3, 10⟩] PaymentMethod.cash 30
      = ((checkout exC4 [⟨1, "A", 3, 10⟩] PaymentMethod.cash 30).1, Except.ok 1) := by
    decide
  exact h.2 exC4 [⟨1, "A", 3, 10⟩] PaymentMethod.cash 30
    (checkout exC4 [⟨1, "A", 3, 10⟩] PaymentMethod.cash 30).1 1 hck

/-- Claim C5: a waste movement whose quantity exceeds the product's current
stock fails with InsufficientStock and changes nothing: products (hence
stock), movements, sales and sale_items are untouched. -/
theorem waste_insufficient_c5 (db : DB) (pid : Nat) (q : Int) (reason : Option String)
    (p : Product)
    (hf : db.products.find? (fun x => x.id == pid) = some p)
    (hlow : p.stock < q) :
    (inventoryMove db pid MovementType.waste q reason).2
        = Except.error MoveError.insufficientStock ∧
    (inventoryMove db pid MovementType.waste q reason).1.products = db.products ∧
    (inventoryMove db pid MovementType.waste q reason).1.movements = db.movements ∧
    (inventoryMove db pid MovementType.waste q reason).1.sales = db.sales ∧
    (inventoryMove db pid MovementType.waste q reason).1.sale_items = db.sale_items := by
  rw [inventoryMove_waste_insufficient db pid q reason p hf hlow]
  exact ⟨rfl, getCurrentSession_products db, getCurrentSession_movements db,
    getCurrentSession_sales db, getCurrentSession_sale_items db⟩

/-- Claim C5 witness: waste of quantity 10 on stock 3 is rejected and stock
remains 3. -/
theorem waste_insufficient_c5_witness :
    ((inventoryMove exC1 1 MovementType.waste 10 none).2
        = Except.error MoveError.insufficientStock ∧
     (inventoryMove exC1 1 MovementType.waste 10 none).1.products = exC1.products ∧
     (inventoryMove exC1 1 MovementType.waste 10 none).1.movements = exC1.movements ∧
     (inventoryMove exC1 1 MovementType.waste 10 none).1.sales = exC1.sales ∧
     (inventoryMove exC1 1 MovementType.waste 10 none).1.sale_items = exC1.sale_items) :=
  waste_insufficient_c5 exC1 1 10 none ⟨1, "A", 5, 3, 3, false⟩ (by decide) (by decide)

/-- Claim C9 (amended): recordMovement fails with NotFound and changes no
stock and writes no Movement row exactly when the product id matches no
row at all; a soft-deleted product is still found by the id-only lookup
and processed like a live one. -/
theorem move_notfound_c9 (db : DB) (pid : Nat) (t : MovementType) (q : Int)
    (reason : Option String)
    (hf : db.products.find? (fun x => x.id == pid) = none) :
    (inventoryMove db pid t q reason).2 = Except.error MoveError.notFound ∧
    (inventoryMove db pid t q reason).1.products = db.products ∧
    (inventoryMove db pid t q reason).1.movements = db.movements ∧
    (inventoryMove db pid t q reason).1.sales = db.sales ∧
    (inventoryMove db pid t q reason).1.sale_items = db.sale_items := by
  rw [inventoryMove_notFound db pid t q reason hf]
  exact ⟨rfl, getCurrentSession_products db, getCurrentSession_movements db,
    getCurrentSession_sales db, getCurrentSession_sale_items db⟩

/-- A store whose only product (id 1, stock 5) is soft-deleted. -/
def exC9 : DB :=
  { emptyDB with products := [⟨1, "A", 5, 5, 5, true⟩], nextProductId := 2 }

/-- Claim C9 counterexample: an entry movement on a soft-deleted product is
accepted (the lookup ignores the deleted flag): it succeeds with new stock
8, updates the stored stock and appends a Movement row, where the claim
requires NotFound and no state change. -/
theorem move_notfound_c9_counterexample :
    (inventoryMove exC9 1 MovementType.entry 3 none).2 = Except.ok 8 ∧
    (inventoryMove exC9 1 MovementType.entry 3 none).1.products.find?
        (fun p => p.id == 1) = some ⟨1, "A", 5, 8, 5, true⟩ ∧
    (inventoryMove exC9 1 MovementType.entry 3 none).1.movements.length
        = exC9.movements.length + 1 := by
  decide

/-- Claim C9 witness: the amended theorem applied to a store with no
product row for id 1. -/
theorem move_notfound_c9_witness :
    ((inventoryMove emptyDB 1 MovementType.entry 3 none).2
        = Except.error MoveError.notFound ∧
     (inventoryMove emptyDB 1 MovementType.entry 3 none).1.products = emptyDB.products ∧
     (inventoryMove emptyDB 1 MovementType.entry 3 none).1.movements = emptyDB.movements ∧
     (inventoryMove emptyDB 1 MovementType.entry 3 none).1.sales = emptyDB.sales ∧
     (inventoryMove emptyDB 1 MovementType.entry 3 none).1.sale_items
        = emptyDB.sale_items) :=
  move_notfound_c9 emptyDB 1 MovementType.entry 3 none (by decide)

theorem map_fix {l : List Product} {f : Product → Product}
    (hf : ∀ p ∈ l, f p = p) : l.map f = l := by
  induction l with
  | nil => rfl
  | cons a t ih =>
      rw [List.map_cons, hf a (List.mem_cons_self a t),
        ih (fun p hp => hf p (List.mem_cons_of_mem a hp))]

/-- Claim C6 (amended): the engine applies no numeric validation.
updateProduct overwrites the stored row with the given name/price/stock
verbatim, whatever their values (a negative price included), reporting the
positive changed-row count; addProduct likewise inserts any price and
initial stock verbatim and reports the new id. -/
theorem update_no_validation_c6 (db : DB) (id : Nat) (nm : String) (price : ℚ)
    (stock : Int) (p : Product)
    (hf : db.products.find? (fun q => q.id == id) = some p) :
    (updateProduct db id nm price stock).1.products.find? (fun q => q.id == id)
        = some { p with name := nm, price := price, stock := stock } ∧
    0 < (updateProduct db id nm price stock).2 ∧
    (∀ (nm2 : String) (price2 : ℚ) (istock : Int),
      (addProduct db nm2 price2 istock).1.products
        = db.products ++ [{ id := db.nextProductId, name := nm2, price := price2
                            stock := istock, initial_stock := istock, deleted := false }] ∧
      (addProduct db nm2 price2 istock).2 = db.nextProductId) := by
  have hpid : p.id = id := by simpa using List.find?_some hf
  refine ⟨?_, ?_, ?_⟩
  · show (db.products.map _).find? _ = _
    rw [find?_map_preserve _ _ _ (fun q => by by_cases hq : q.id = id <;> simp [hq])]
    rw [hf]
    show some (if p.id = id then { p with name := nm, price := price, stock := stock }
        else p) = _
    rw [if_pos hpid]
  · show 0 < (db.products.filter (fun q => q.id == id)).length
    have hmem : p ∈ db.products.filter (fun q => q.id == id) :=
      List.mem_filter.2 ⟨List.mem_of_find?_eq_some hf, by simp [hpid]⟩
    exact List.length_pos.2 (List.ne_nil_of_mem hmem)
  · intro nm2 price2 istock
    exact ⟨rfl, rfl⟩

/-- Claim C6 counterexample: updateProduct with price -5 on a stored row
(price 5, stock 3) is accepted: it reports one changed row and overwrites
the stored price to -5, where the claim requires an InvalidArgument
failure with the row left exactly as it was. -/
theorem update_no_validation_c6_counterexample :
    (updateProduct exC1 1 "A" (-5) 3).2 = 1 ∧
    (updateProduct exC1 1 "A" (-5) 3).1.products = [⟨1, "A", -5, 3, 3, false⟩] ∧
    (updateProduct exC1 1 "A" (-5) 3).1.products ≠ exC1.products := by
  decide

/-- Claim C6 witness: the amended theorem applied with a negative price and
a negative initial stock. -/
theorem update_no_validation_c6_witness :
    ((updateProduct exC1 1 "B" (-5) 7).1.products.find? (fun q => q.id == 1)
        = some ⟨1, "B", -5, 7, 3, false⟩ ∧
     0 < (updateProduct exC1 1 "B" (-5) 7).2) ∧
    ((addProduct exC1 "N" (-3) (-2)).1.products
        = exC1.products ++ [⟨2, "N", -3, -2, -2, false⟩] ∧
     (addProduct exC1 "N" (-3) (-2)).2 = 2) := by
  have h := update_no_validation_c6 exC1 1 "B" (-5) 7 ⟨1, "A", 5, 3, 3, false⟩ (by decide)
  exact ⟨⟨h.1, h.2.1⟩, h.2.2 "N" (-3) (-2)⟩

/-- Claim C7 (amended): when no product row matches the id, updateProduct
and softDeleteProduct report success with changes = 0 (no NotFound failure
is raised) and change no row. -/
theorem missing_id_c7 (db : DB) (id : Nat) (nm : String) (price : ℚ) (stock : Int)
    (h : ∀ p ∈ db.products, p.id ≠ id) :
    (updateProduct db id nm price stock).2 = 0 ∧
    (updateProduct db id nm price stock).1 = db ∧
    (softDeleteProduct db id).2 = 0 ∧
    (softDeleteProduct db id).1 = db := by
  have hfil : db.products.filter (fun q => q.id == id) = [] :=
    List.filter_eq_nil_iff.2 (fun p hp => by simpa using h p hp)
  have hmap1 : db.products.map (fun p =>
      if p.id = id then { p with name := nm, price := price, stock := stock } else p)
      = db.products :=
    map_fix (fun p hp => if_neg (h p hp))
  have hmap2 : db.products.map (fun p =>
      if p.id = id then { p with deleted := true } else p) = db.products :=
    map_fix (fun p hp => if_neg (h p hp))
  refine ⟨?_, ?_, ?_, ?_⟩
  · show (db.products.filter (fun q => q.id == id)).length = 0
    rw [hfil]
    rfl
  · show ({ db with products := db.products.map _ } : DB) = db
    rw [hmap1]
  · show (db.products.filter (fun q => q.id == id)).length = 0
    rw [hfil]
    rfl
  · show ({ db with products := db.products.map _ } : DB) = db
    rw [hmap2]

/-- Claim C7 counterexample: with no product of id 7 in the store, both
calls complete normally — the handlers answer success with changes = 0 —
rather than failing with NotFound; no row is changed. -/
theorem missing_id_c7_counterexample :
    (∀ p ∈ exC1.products, p.id ≠ 7) ∧
    (updateProduct exC1 7 "x" 1 1).2 = 0 ∧
    (updateProduct exC1 7 "x" 1 1).1 = exC1 ∧
    (softDeleteProduct exC1 7).2 = 0 ∧
    (softDeleteProduct exC1 7).1 = exC1 := by
  decide

/-- Claim C7 witness: the amended theorem applied to id 9 on the
one-product store. -/
theorem missing_id_c7_witness :
    ((updateProduct exC1 9 "x" 2 4).2 = 0 ∧
     (updateProduct exC1 9 "x" 2 4).1 = exC1 ∧
     (softDeleteProduct exC1 9).2 = 0 ∧
     (softDeleteProduct exC1 9).1 = exC1) :=
  missing_id_c7 exC1 9 "x" 2 4 (by decide)

/-- Claim C8 (amended): checkout performs no validation of the items list.
An empty list succeeds: it returns a sale id and commits one Sale row with
no SaleItems, movements or stock changes.  An item with non-positive
quantity is likewise accepted whenever its product exists with
nonnegative stock (the only check is the stock comparison). -/
theorem checkout_no_validation_c8 (db : DB) (pm : PaymentMethod) (total : ℚ) :
    (checkout db [] pm total).2 = Except.ok db.nextSaleId ∧
    (checkout db [] pm total).1.sales = db.sales ++
      [{ id := db.nextSaleId, session_id := (getCurrentSession db).2.id, total := total
         payment_method := pm, timestamp := db.now }] ∧
    (checkout db [] pm total).1.products = db.products ∧
    (checkout db [] pm total).1.sale_items = db.sale_items ∧
    (checkout db [] pm total).1.movements = db.movements ∧
    (∀ (item : CartItem) (p : Product),
      db.products.find? (fun q => q.id == item.id) = some p →
      item.quantity ≤ 0 → 0 ≤ p.stock →
      (checkout db [item] pm total).2 = Except.ok db.nextSaleId) := by
  have heq := checkout_ok db [] pm total (stageSale db pm total) rfl
  refine ⟨?_, ?_, ?_, ?_, ?_, ?_⟩
  · rw [heq]
  · rw [heq]
    exact stageSale_sales db pm total
  · rw [heq]
    exact stageSale_products db pm total
  · rw [heq]
    exact stageSale_sale_items db pm total
  · rw [heq]
    exact stageSale_movements db pm total
  · intro item p hf hq hs
    have hstf : (stageSale db pm total).products.find? (fun q => q.id == item.id)
        = some p := by
      rw [stageSale_products]
      exact hf
    have hge : ¬ p.stock < item.quantity := by omega
    have hstep := checkoutStep_ok (getCurrentSession db).2.id
      (getCurrentSession db).1.nextSaleId (stageSale db pm total) item p hstf hge
    have hitems : checkoutItems (getCurrentSession db).2.id
        (getCurrentSession db).1.nextSaleId (stageSale db pm total) [item]
        = Except.ok (stageItem (getCurrentSession db).2.id
            (getCurrentSession db).1.nextSaleId (stageSale db pm total) item) := by
      show (checkoutStep _ _ _ _).bind _ = _
      rw [hstep]
      rfl
    rw [checkout_ok db [item] pm total _ hitems]

/-- Claim C8 counterexample: checkout with an empty items list succeeds
(returning sale id 1 and growing the sales table), and items with
quantity 0 or -2 are accepted, where the claim requires InvalidArgument
with no state change. -/
theorem checkout_no_validation_c8_counterexample :
    (checkout exC1 [] PaymentMethod.cash 0).2 = Except.ok 1 ∧
    (checkout exC1 [] PaymentMethod.cash 0).1.sales.length = exC1.sales.length + 1 ∧
    (checkout exC1 [⟨1, "A", 0, 10⟩] PaymentMethod.cash 0).2 = Except.ok 1 ∧
    (checkout exC1 [⟨1, "A", -2, 10⟩] PaymentMethod.cash 0).2 = Except.ok 1 := by
  decide

/-- Claim C8 witness: the amended theorem applied to the one-product store,
with the zero-quantity item instance. -/
theorem checkout_no_validation_c8_witness :
    ((checkout exC1 [] PaymentMethod.cash 0).2 = Except.ok 1 ∧
     (checkout exC1 [] PaymentMethod.cash 0).1.sales
        = exC1.sales ++ [⟨1, 1, 0, PaymentMethod.cash, 0⟩] ∧
     (checkout exC1 [] PaymentMethod.cash 0).1.products = exC1.products ∧
     (checkout exC1 [] PaymentMethod.cash 0).1.sale_items = exC1.sale_items ∧
     (checkout exC1 [] PaymentMethod.cash 0).1.movements = exC1.movements) ∧
    (checkout exC1 [⟨1, "A", 0, 10⟩] PaymentMethod.cash 0).2 = Except.ok 1 := by
  have h := checkout_no_validation_c8 exC1 PaymentMethod.cash 0
  exact ⟨⟨h.1, h.2.1, h.2.2.1, h.2.2.2.1, h.2.2.2.2.1⟩,
    h.2.2.2.2.2 ⟨1, "A", 0, 10⟩ ⟨1, "A", 5, 3, 3, false⟩ (by decide) (by decide)
      (by decide)⟩

/-- Claim C10: after softDeleteProduct(id) the product appears in no
listProducts() output (every listed product has a different id), while the
movements table is untouched and reportForSession still returns each of the
product's movement rows joined with the product's name as stored at
deletion time. -/
theorem softdelete_report_c10 (db : DB) (pid : Nat) (p : Product)
    (hf : db.products.find? (fun q => q.id == pid) = some p) :
    (∀ q ∈ listProducts (softDeleteProduct db pid).1, q.id ≠ pid) ∧
    (softDeleteProduct db pid).1.movements = db.movements ∧
    (∀ (sid : Nat), ∀ m ∈ db.movements, m.session_id = sid → m.product_id = pid →
      ({ movement := m, product_name := p.name } : ReportRow)
        ∈ (reportForSession (softDeleteProduct db pid).1 sid).2) := by
  have hpid : p.id = pid := by simpa using List.find?_some hf
  refine ⟨?_, rfl, ?_⟩
  · intro q hq
    have hq2 := List.mem_filter.1 hq
    rcases List.mem_map.1 hq2.1 with ⟨x, hx, hxq⟩
    by_cases hid : x.id = pid
    · exfalso
      rw [if_pos hid] at hxq
      rw [← hxq] at hq2
      simp at hq2
    · rw [if_neg hid] at hxq
      rw [← hxq]
      exact hid
  · intro sid m hm hsid hpidm
    apply List.mem_filterMap.2
    refine ⟨m, ?_, ?_⟩
    · exact List.mem_filter.2 ⟨hm, by simp [hsid]⟩
    · rw [hpidm]
      show ((db.products.map (fun x =>
          if x.id = pid then { x with deleted := true } else x)).find?
            (fun q => q.id == pid)).map
          (fun r => ({ movement := m, product_name := r.name } : ReportRow)) = _
      rw [find?_map_preserve _ _ _ (fun q => by by_cases hq : q.id = pid <;> simp [hq])]
      rw [hf]
      show some ({ movement := m
                   product_name := (if p.id = pid then { p with deleted := true }
                     else p).name } : ReportRow) = _
      rw [if_pos hpid]

/-- A store with one session, one product (id 1, "A") and one entry
movement for that product in session 1. -/
def exC10 : DB :=
  { emptyDB with sessions := [⟨1, 0, none, false⟩]
                 products := [⟨1, "A", 5, 3, 3, false⟩]
                 movements := [⟨1, 1, 1, MovementType.entry, 3, none, 0⟩]
                 nextSessionId := 2, nextProductId := 2, nextMovementId := 2 }

/-- Claim C10 witness: soft-deleting product 1 removes it from the catalog
listing, and the session-1 report still returns its entry movement joined
with the historical name "A". -/
theorem softdelete_report_c10_witness :
    (∀ q ∈ listProducts (softDeleteProduct exC10 1).1, q.id ≠ 1) ∧
    (softDeleteProduct exC10 1).1.movements = exC10.movements ∧
    ({ movement := ⟨1, 1, 1, MovementType.entry, 3, none, 0⟩, product_name := "A" }
        : ReportRow) ∈ (reportForSession (softDeleteProduct exC10 1).1 1).2 := by
  have h := softdelete_report_c10 exC10 1 ⟨1, "A", 5, 3, 3, false⟩ (by decide)
  exact ⟨h.1, h.2.1,
    h.2.2 1 ⟨1, 1, 1, MovementType.entry, 3, none, 0⟩ (by decide) rfl rfl⟩
